import Mathlib

/-!
# Trade Analytics Engine — verification of the Tradelog client

Shallow embedding of the derived-analytics computations of the Tradelog
client: `calculateLossMetrics` (Analytics page), `calculateProgress` and
`getGoalStatus` (TradingPlan page), the Loss Insights bullet list, and the
loss-percentage display.  Money amounts are embedded as exact rationals
(`ℚ`), timestamps as integer milliseconds (`Int`, the value of
`new Date(x).getTime()`; `new Date(null)` is the epoch, i.e. `0`).
JavaScript's stable `Array.prototype.sort` is embedded as
`List.insertionSort` (stable; ties keep fetch order, which the code leaves
unspecified anyway).
-/

namespace Tradelog

/-- A trade record as consumed by the Analytics page.  `exit_price`,
`profit_loss`, `profit_loss_pct` and `exit_time` are nullable (null for an
open position); fields the analytics never reads (entry data, lot size,
notes, …) are omitted. -/
structure Trade where
  id : Nat
  currency_pair : String
  direction : String
  exit_price : Option ℚ
  profit_loss : Option ℚ
  profit_loss_pct : Option ℚ
  exit_time : Option Int
  strategy : Option String
  deriving DecidableEq, Repr

/-- The server-computed statistics object (`GET /analytics/stats`),
consumed read-only by the client. -/
structure Stats where
  total_trades : Nat
  win_rate : ℚ
  total_profit_loss : ℚ
  average_win : ℚ
  average_loss : ℚ
  best_trade : ℚ
  worst_trade : ℚ
  long_win_rate : ℚ
  short_win_rate : ℚ
  deriving DecidableEq, Repr

/-- `t.exit_price !== null` — the "closed trade" test. -/
def isClosed (t : Trade) : Bool := t.exit_price.isSome

/-- `t.profit_loss < 0` under JavaScript comparison semantics: a null
`profit_loss` compares as not-less-than zero, so the test is false. -/
def isLoss (t : Trade) : Bool :=
  match t.profit_loss with
  | some p => decide (p < 0)
  | none => false

/-- Sort key `new Date(t.exit_time).getTime()`; `new Date(null)` is `0`. -/
def exitKey (t : Trade) : Int := t.exit_time.getD 0

/-- Comparator `(a, b) => new Date(a.exit_time) - new Date(b.exit_time)`
(ascending by exit time). -/
def exitAsc (a b : Trade) : Prop := exitKey a ≤ exitKey b

/-- Comparator `(a, b) => new Date(b.exit_time) - new Date(a.exit_time)`
(descending by exit time). -/
def exitDesc (a b : Trade) : Prop := exitKey b ≤ exitKey a

instance : DecidableRel exitAsc := fun a b => inferInstanceAs (Decidable (exitKey a ≤ exitKey b))
instance : DecidableRel exitDesc := fun a b => inferInstanceAs (Decidable (exitKey b ≤ exitKey a))

instance : IsTotal Trade exitAsc := ⟨fun a b => le_total (exitKey a) (exitKey b)⟩
instance : IsTrans Trade exitAsc := ⟨fun _ _ _ h h2 => le_trans h h2⟩
instance : IsTotal Trade exitDesc := ⟨fun a b => le_total (exitKey b) (exitKey a)⟩
instance : IsTrans Trade exitDesc := ⟨fun _ _ _ h h2 => le_trans h2 h⟩

/-- One entry of `lossByPair`: `{ pair, count, total }`. -/
structure PairLoss where
  pair : String
  count : Nat
  total : ℚ
  deriving DecidableEq, Repr

/-- Comparator `(a, b) => a.total - b.total` (ascending by total). -/
def totalAsc (a b : PairLoss) : Prop := a.total ≤ b.total

instance : DecidableRel totalAsc := fun a b => inferInstanceAs (Decidable (a.total ≤ b.total))
instance : IsTotal PairLoss totalAsc := ⟨fun a b => le_total a.total b.total⟩
instance : IsTrans PairLoss totalAsc := ⟨fun _ _ _ h h2 => le_trans h h2⟩

/-- The record returned by `calculateLossMetrics`. -/
structure LossMetrics where
  totalLosses : Nat
  longestStreak : Nat
  lossByPair : List PairLoss
  recentLosses : List Trade
  deriving DecidableEq, Repr

/-- One step of the streak scan in `calculateLossMetrics`: the state is
`(currentStreak, maxStreak)`; a loss increments `currentStreak` and raises
`maxStreak` to it, any non-loss resets `currentStreak` to zero. -/
def streakStep (acc : Nat × Nat) (t : Trade) : Nat × Nat :=
  if isLoss t then (acc.1 + 1, max acc.2 (acc.1 + 1)) else (0, acc.2)

/-- The incremental update the grouping loop performs on the accumulator
for one losing trade: bump the existing `{count, total}` entry for the
trade's pair, or append a fresh entry (JavaScript object keys keep
insertion order). -/
def bump (pair : String) (pl : ℚ) : List (String × Nat × ℚ) → List (String × Nat × ℚ)
  | [] => [(pair, 1, pl)]
  | (q, c, tot) :: rest =>
    if q = pair then (q, c + 1, tot + pl) :: rest
    else (q, c, tot) :: bump pair pl rest

/-- The `lossByPair` grouping loop: fold over the losing trades in fetch
order, accumulating per-pair `{count, total}` entries. -/
def groupLosses (l : List Trade) : List (String × Nat × ℚ) :=
  l.foldl (fun acc t => bump t.currency_pair (t.profit_loss.getD 0) acc) []

/-- The `closedTrades` binding: `trades.filter(t => t.exit_price !== null)`. -/
def closedOf (trades : List Trade) : List Trade := trades.filter isClosed

/-- The `losingTrades` binding: `closedTrades.filter(t => t.profit_loss < 0)`. -/
def losingOf (trades : List Trade) : List Trade := (closedOf trades).filter isLoss

/-- `calculateLossMetrics` from the Analytics page, embedded step for
step: filter to closed trades, filter those to losing trades, compute the
longest losing streak by a single scan over the closed trades sorted
ascending by exit time, group losses by currency pair (sorted ascending by
total, top 5), and keep the 5 most recent losses.  In the source the two
sorts mutate the arrays produced by `filter`, never the `trades` state,
and the grouping runs before `losingTrades` is re-sorted, hence over fetch
order. -/
def calculateLossMetrics (trades : List Trade) : LossMetrics :=
  let losingTrades := losingOf trades
  let sortedClosed := (closedOf trades).insertionSort exitAsc
  { totalLosses := losingTrades.length
    longestStreak := (sortedClosed.foldl streakStep (0, 0)).2
    lossByPair :=
      (((groupLosses losingTrades).map fun e => PairLoss.mk e.1 e.2.1 e.2.2).insertionSort
        totalAsc).take 5
    recentLosses := (losingTrades.insertionSort exitDesc).take 5 }

/-- Declarative "length of the longest run of consecutive losing trades":
the maximum, over every suffix, of the run of losses at its head. -/
def maxRun : List Trade → Nat
  | [] => 0
  | x :: xs => max ((x :: xs).takeWhile isLoss).length (maxRun xs)

/-- A goal record as managed by the TradingPlan page.  `target_date` is
the millisecond timestamp of `new Date(goal.target_date)`. -/
structure Goal where
  id : Nat
  title : String
  target_amount : ℚ
  target_date : Int
  description : String
  completed : Bool
  deriving DecidableEq, Repr

/-- `calculateProgress` from the TradingPlan page: `0` while `stats` is
still `null`, otherwise `min(total_profit_loss / target_amount * 100, 100)`.
`target_amount` is a positive decimal per the data model; theorems that
rely on the division carry `0 < target_amount` explicitly. -/
def calculateProgress (stats : Option Stats) (goal : Goal) : ℚ :=
  match stats with
  | none => 0
  | some s => min (s.total_profit_loss / goal.target_amount * 100) 100

/-- `Math.ceil((new Date(goal.target_date) - new Date()) / (1000*60*60*24))`
with `now` the current instant in milliseconds. -/
def daysLeft (goal : Goal) (now : Int) : Int :=
  ⌈((goal.target_date - now : Int) : ℚ) / 86400000⌉

/-- `getGoalStatus` from the TradingPlan page: the if-chain over the
completed flag, progress, and days left. -/
def getGoalStatus (stats : Option Stats) (now : Int) (goal : Goal) : String :=
  if goal.completed then "completed"
  else if 100 ≤ calculateProgress stats goal then "achieved"
  else if daysLeft goal now < 0 then "expired"
  else if daysLeft goal now ≤ 7 then "urgent"
  else "active"

/-- One bullet of the Loss Insights card, abstracted from its rendered
text to the datum each bullet cites. -/
inductive Insight where
  | worstTrade (amount : ℚ)
  | streakWarning (streak : Nat)
  | riskSizing
  | worstPair (pair : String)
  deriving DecidableEq, Repr

/-- The Loss Insights card body: an unconditional bullet citing
`|worst_trade|` (the source renders `Math.abs(stats.worst_trade)`),
then one conditional bullet per rule, in source order. -/
def buildInsights (stats : Stats) (lm : LossMetrics) : List Insight :=
  [Insight.worstTrade |stats.worst_trade|]
    ++ (if 2 < lm.longestStreak then [Insight.streakWarning lm.longestStreak] else [])
    ++ (if stats.average_loss < -50 then [Insight.riskSizing] else [])
    ++ (match lm.lossByPair with
        | [] => []
        | p :: _ => [Insight.worstPair p.pair])

/-- The render guard of the Losses Analysis tab body:
`lossMetrics && lossMetrics.totalLosses > 0` where `lossMetrics` is
non-null iff `stats` is. -/
def lossesTabShown (stats : Option Stats) (trades : List Trade) : Bool :=
  match stats with
  | none => false
  | some _ => decide (0 < (calculateLossMetrics trades).totalLosses)

/-- The "% of trades" figure of the Total Losses card:
`(lossMetrics.totalLosses / stats.total_trades) * 100`.  JavaScript
division by zero yields a non-finite number, embedded as `none`. -/
def lossPercentOfTrades (lm : LossMetrics) (s : Stats) : Option ℚ :=
  if s.total_trades = 0 then none
  else some ((lm.totalLosses : ℚ) / (s.total_trades : ℚ) * 100)

/-- `calculateLossMetrics` with the post-state of the `trades` array made
explicit.  In the source the two `.sort(...)` calls mutate only the fresh
arrays returned by `.filter(...)`, never the `trades` state, so the
post-state equals the input. -/
def runCalculateLossMetrics (trades : List Trade) : LossMetrics × List Trade :=
  (calculateLossMetrics trades, trades)

/-- Helper to build a closed trade for the concrete scenarios. -/
def mkClosed (i : Nat) (pair : String) (pl : ℚ) (time : Int) : Trade :=
  { id := i
    currency_pair := pair
    direction := "long"
    exit_price := some 1
    profit_loss := some pl
    profit_loss_pct := some pl
    exit_time := some time
    strategy := none }

/-- The spec's scenario list: four closed trades with profit/loss
`-10, -20, +5, -30`, exit times already ascending. -/
def streakScenario : List Trade :=
  [mkClosed 1 "EURUSD" (-10) 1, mkClosed 2 "GBPUSD" (-20) 2,
   mkClosed 3 "EURUSD" 5 3, mkClosed 4 "USDJPY" (-30) 4]

/-- Number of trades of `l` on pair `p` (the intended meaning of a
group's `count` when `l` is the losing-trade list). -/
def countPair (l : List Trade) (p : String) : Nat :=
  (l.filter fun t => t.currency_pair = p).length

/-- Sum of `profit_loss` over the trades of `l` on pair `p`. -/
def sumPair (l : List Trade) (p : String) : ℚ :=
  ((l.filter fun t => t.currency_pair = p).map fun t => t.profit_loss.getD 0).sum

/-- Association lookup in the grouping accumulator. -/
def lookGrp (p : String) : List (String × Nat × ℚ) → Option (Nat × ℚ)
  | [] => none
  | (q, c, tot) :: rest => if q = p then some (c, tot) else lookGrp p rest

/-- The pairs present in the grouping accumulator, in insertion order. -/
def grpKeys (acc : List (String × Nat × ℚ)) : List String := acc.map fun e => e.1

/-- The spec's goal scenario: `target_amount = 1000`, thirty days out,
not yet completed. -/
def goalScenario : Goal :=
  { id := 1
    title := "Reach 1000"
    target_amount := 1000
    target_date := 2592000000
    description := ""
    completed := false }

/-- The spec's stats scenario: `total_profit_loss = 1200`. -/
def statsScenario : Stats :=
  { total_trades := 10
    win_rate := 50
    total_profit_loss := 1200
    average_win := 30
    average_loss := -20
    best_trade := 100
    worst_trade := -80
    long_win_rate := 50
    short_win_rate := 50 }

/-- The scenario goal with its completed flag set. -/
def goalCompleted : Goal := { goalScenario with completed := true }

/-- The scenario stats with a negative total P&L. -/
def statsNegative : Stats := { statsScenario with total_profit_loss := -500 }

/-- The scenario stats with exactly zero total P&L. -/
def statsZero : Stats := { statsScenario with total_profit_loss := 0 }

/-- A concrete metrics value used by the insight witness. -/
def lmScenario : LossMetrics := calculateLossMetrics streakScenario

/-- A stats object reporting no trades at all. -/
def zeroStats : Stats := ⟨0, 0, 0, 0, 0, 0, 0, 0, 0⟩

/-- A single losing closed trade. -/
def lossOnlyTrades : List Trade := [mkClosed 1 "EURUSD" (-25) 1]

/-- A stats object consistent with `lossOnlyTrades`. -/
def statsConsistent : Stats := { zeroStats with total_trades := 4 }

/-! ## The streak scan computes the longest run of consecutive losses -/

lemma takeWhile_length_le_maxRun (l : List Trade) :
    (l.takeWhile isLoss).length ≤ maxRun l := by
  cases l with
  | nil => simp [maxRun]
  | cons x xs => exact le_max_left _ _

/-- The scan invariant: starting from state `(c, m)` with `c ≤ m`, the
final `maxStreak` is the maximum of `m`, of the initial run extended by
the carried-in streak `c`, and of the longest run anywhere in the list. -/
lemma foldl_streakStep_eq (l : List Trade) :
    ∀ c m : Nat, c ≤ m →
      (l.foldl streakStep (c, m)).2
        = max m (max (c + (l.takeWhile isLoss).length) (maxRun l)) := by
  induction l with
  | nil =>
    intro c m h
    simp [maxRun]
    omega
  | cons x xs ih =>
    intro c m h
    by_cases hx : isLoss x
    · rw [List.foldl_cons, show streakStep (c, m) x = (c + 1, max m (c + 1)) by
        simp [streakStep, hx]]
      rw [ih (c + 1) (max m (c + 1)) (le_max_right _ _)]
      simp [maxRun, List.takeWhile_cons, hx]
      omega
    · rw [List.foldl_cons, show streakStep (c, m) x = (0, m) by simp [streakStep, hx]]
      rw [ih 0 m (Nat.zero_le m)]
      have htw := takeWhile_length_le_maxRun xs
      simp [maxRun, List.takeWhile_cons, hx]
      omega

lemma longestStreak_eq_maxRun (trades : List Trade) :
    (calculateLossMetrics trades).longestStreak
      = maxRun ((closedOf trades).insertionSort exitAsc) := by
  have h := foldl_streakStep_eq ((closedOf trades).insertionSort exitAsc) 0 0 le_rfl
  have htw := takeWhile_length_le_maxRun ((closedOf trades).insertionSort exitAsc)
  simp only [calculateLossMetrics] at h ⊢
  omega

/-- C1: for every trade list, `calculateLossMetrics` returns
`longestStreak` equal to the length of the longest run of consecutive
losing trades among the closed trades sorted ascending by `exit_time`
(the scan with a counter reset on any non-loss computes exactly that
maximum); on the four-trade scenario `-10, -20, +5, -30` it returns 2. -/
theorem longestStreak_is_longest_run :
    (∀ trades : List Trade,
      (calculateLossMetrics trades).longestStreak
        = maxRun ((closedOf trades).insertionSort exitAsc)) ∧
    (calculateLossMetrics streakScenario).longestStreak = 2 :=
  ⟨longestStreak_eq_maxRun, by decide⟩

/-! ## Zero losing trades give the all-zero result -/

lemma foldl_streakStep_no_loss (l : List Trade) (h : ∀ t ∈ l, isLoss t = false) :
    ∀ m, l.foldl streakStep (0, m) = (0, m) := by
  induction l with
  | nil => intro m; rfl
  | cons x xs ih =>
    intro m
    rw [List.foldl_cons, show streakStep (0, m) x = (0, m) by
      simp [streakStep, h x (by simp)]]
    exact ih (fun t ht => h t (by simp [ht])) m

/-- C7: a trade list with zero losing trades yields exactly
`{totalLosses := 0, longestStreak := 0, lossByPair := [], recentLosses := []}`;
the empty list satisfies the hypothesis, so empty input is a valid
zero-result case rather than an error. -/
theorem zero_losses_zero_result (trades : List Trade)
    (h : losingOf trades = []) :
    calculateLossMetrics trades = ⟨0, 0, [], []⟩ := by
  have hall : ∀ t ∈ closedOf trades, isLoss t = false := by
    intro t ht
    by_contra hcontra
    have hmem : t ∈ losingOf trades :=
      List.mem_filter.mpr ⟨ht, by simpa using hcontra⟩
    simp [h] at hmem
  have hs : ∀ t ∈ (closedOf trades).insertionSort exitAsc, isLoss t = false := by
    intro t ht
    exact hall t (by simpa using ht)
  have hfold : List.foldl streakStep 0 ((closedOf trades).insertionSort exitAsc)
      = (0 : Nat × Nat) := foldl_streakStep_no_loss _ hs 0
  simp [calculateLossMetrics, h, groupLosses, hfold]

/-- Witness for C7: one winning closed trade plus one open trade has no
losing trades, and the metrics all come out zero/empty. -/
theorem zero_losses_zero_result_witness :
    calculateLossMetrics
        [mkClosed 1 "EURUSD" 25 1,
         { mkClosed 2 "GBPUSD" 0 2 with exit_price := none, profit_loss := none }]
      = ⟨0, 0, [], []⟩ :=
  zero_losses_zero_result _ (by decide)

/-! ## Per-pair grouping: count, total, sortedness, top 5 -/

lemma lookGrp_bump_self (pair : String) (pl : ℚ) : ∀ acc,
    lookGrp pair (bump pair pl acc)
      = some (match lookGrp pair acc with
              | none => (1, pl)
              | some (c, t) => (c + 1, t + pl)) := by
  intro acc
  induction acc with
  | nil => simp [bump, lookGrp]
  | cons e rest ih =>
    obtain ⟨q, c, tot⟩ := e
    by_cases hq : q = pair
    · subst hq
      simp [bump, lookGrp]
    · simp [bump, lookGrp, hq, ih]

lemma lookGrp_bump_ne (pair p : String) (hp : p ≠ pair) (pl : ℚ) : ∀ acc,
    lookGrp p (bump pair pl acc) = lookGrp p acc := by
  intro acc
  induction acc with
  | nil => simp [bump, lookGrp, Ne.symm hp]
  | cons e rest ih =>
    obtain ⟨q, c, tot⟩ := e
    by_cases hq : q = pair
    · subst hq
      simp [bump, lookGrp, Ne.symm hp]
    · simp only [bump, if_neg hq, lookGrp]
      by_cases hqp : q = p
      · simp [hqp]
      · simp [hqp, ih]

lemma grpKeys_bump (pair : String) (pl : ℚ) : ∀ acc,
    grpKeys (bump pair pl acc)
      = if pair ∈ grpKeys acc then grpKeys acc else grpKeys acc ++ [pair] := by
  intro acc
  induction acc with
  | nil => simp [bump, grpKeys]
  | cons e rest ih =>
    obtain ⟨q, c, tot⟩ := e
    by_cases hq : q = pair
    · subst hq
      simp [bump, grpKeys]
    · rw [show bump pair pl ((q, c, tot) :: rest) = (q, c, tot) :: bump pair pl rest by
        simp [bump, hq]]
      rw [show grpKeys ((q, c, tot) :: bump pair pl rest)
          = q :: grpKeys (bump pair pl rest) from rfl]
      rw [ih]
      rw [show grpKeys ((q, c, tot) :: rest) = q :: grpKeys rest from rfl]
      by_cases hmem : pair ∈ grpKeys rest
      · simp [hmem, Ne.symm hq]
      · simp [hmem, Ne.symm hq]

lemma grpKeys_bump_nodup (pair : String) (pl : ℚ) (acc : List (String × Nat × ℚ))
    (h : (grpKeys acc).Nodup) : (grpKeys (bump pair pl acc)).Nodup := by
  rw [grpKeys_bump]
  by_cases hmem : pair ∈ grpKeys acc
  · simpa [hmem] using h
  · simp [hmem, List.nodup_append, h]

lemma mem_iff_lookGrp : ∀ acc : List (String × Nat × ℚ), (grpKeys acc).Nodup →
    ∀ p c tot, ((p, c, tot) ∈ acc ↔ lookGrp p acc = some (c, tot)) := by
  intro acc
  induction acc with
  | nil => simp [lookGrp]
  | cons e rest ih =>
    obtain ⟨q, c', t'⟩ := e
    intro hnd p c tot
    rw [show grpKeys ((q, c', t') :: rest) = q :: grpKeys rest from rfl] at hnd
    have hnd' : (grpKeys rest).Nodup := hnd.of_cons
    have hqmem : q ∉ grpKeys rest := (List.nodup_cons.mp hnd).1
    by_cases hq : q = p
    · subst hq
      constructor
      · intro hm
        rcases List.mem_cons.mp hm with heq | hrest
        · injection heq with h1 h23
          injection h23 with h2 h3
          subst h2; subst h3
          simp [lookGrp]
        · exact absurd
            (by simpa [grpKeys] using List.mem_map_of_mem (fun e => e.1) hrest) hqmem
      · intro hl
        have hl2 : c' = c ∧ t' = tot := by
          simpa [lookGrp, Prod.ext_iff] using hl
        obtain ⟨h2, h3⟩ := hl2
        subst h2; subst h3
        exact List.mem_cons_self _ _
    · constructor
      · intro hm
        rcases List.mem_cons.mp hm with heq | hrest
        · injection heq with h1 h23
          exact absurd h1.symm hq
        · simp only [lookGrp, if_neg hq]
          exact (ih hnd' p c tot).mp hrest
      · intro hl
        simp only [lookGrp, if_neg hq] at hl
        exact List.mem_cons_of_mem _ ((ih hnd' p c tot).mpr hl)

lemma grpKeys_groupLosses_nodup (l : List Trade) :
    (grpKeys (groupLosses l)).Nodup := by
  induction l using List.reverseRecOn with
  | nil => simp [groupLosses, grpKeys]
  | append_singleton l t ih =>
    have : groupLosses (l ++ [t])
        = bump t.currency_pair (t.profit_loss.getD 0) (groupLosses l) := by
      simp [groupLosses, List.foldl_append]
    rw [this]
    exact grpKeys_bump_nodup _ _ _ ih

lemma groupLosses_concat (l : List Trade) (t : Trade) :
    groupLosses (l ++ [t])
      = bump t.currency_pair (t.profit_loss.getD 0) (groupLosses l) := by
  simp [groupLosses, List.foldl_append]

lemma countPair_concat (l : List Trade) (t : Trade) (p : String) :
    countPair (l ++ [t]) p
      = countPair l p + if t.currency_pair = p then 1 else 0 := by
  by_cases hp : t.currency_pair = p <;>
    simp [countPair, List.filter_append, hp]

lemma sumPair_concat (l : List Trade) (t : Trade) (p : String) :
    sumPair (l ++ [t]) p
      = sumPair l p + if t.currency_pair = p then t.profit_loss.getD 0 else 0 := by
  by_cases hp : t.currency_pair = p <;>
    simp [sumPair, List.filter_append, hp]

lemma sumPair_of_countPair_zero (l : List Trade) (p : String)
    (h : countPair l p = 0) : sumPair l p = 0 := by
  have hf : (l.filter fun t => t.currency_pair = p) = [] :=
    List.length_eq_zero.mp h
  simp [sumPair, hf]

/-- The grouping loop is correct: looking up pair `p` in the accumulator
built from `l` finds exactly the number of `p`-trades and the sum of
their `profit_loss`, and finds nothing iff `l` has no `p`-trade. -/
lemma lookGrp_groupLosses (l : List Trade) (p : String) :
    lookGrp p (groupLosses l)
      = if countPair l p = 0 then none
        else some (countPair l p, sumPair l p) := by
  induction l using List.reverseRecOn with
  | nil => simp [groupLosses, lookGrp, countPair, sumPair]
  | append_singleton l t ih =>
    rw [groupLosses_concat]
    by_cases hp : t.currency_pair = p
    · rw [hp]
      rw [lookGrp_bump_self p (t.profit_loss.getD 0) (groupLosses l), ih,
        countPair_concat, sumPair_concat]
      by_cases hc : countPair l p = 0
      · simp [hc, hp, sumPair_of_countPair_zero l p hc]
      · simp [hc, hp]
    · rw [lookGrp_bump_ne t.currency_pair p (fun h => hp h.symm) _ (groupLosses l), ih,
        countPair_concat, sumPair_concat]
      simp [hp]

/-- Everything that reaches `lossByPair` carries the exact count and sum
of the losing trades on its pair, and its pair does occur among the
losing trades. -/
lemma lossByPair_mem_spec (trades : List Trade) (e : PairLoss)
    (he : e ∈ (calculateLossMetrics trades).lossByPair) :
    countPair (losingOf trades) e.pair ≠ 0 ∧
    e.count = countPair (losingOf trades) e.pair ∧
    e.total = sumPair (losingOf trades) e.pair := by
  have he1 : e ∈ ((groupLosses (losingOf trades)).map
      fun x => PairLoss.mk x.1 x.2.1 x.2.2).insertionSort totalAsc := by
    have := List.take_subset 5 (((groupLosses (losingOf trades)).map
      fun x => PairLoss.mk x.1 x.2.1 x.2.2).insertionSort totalAsc)
    exact this (by simpa [calculateLossMetrics] using he)
  have he2 : e ∈ (groupLosses (losingOf trades)).map
      fun x => PairLoss.mk x.1 x.2.1 x.2.2 := by
    simpa using he1
  obtain ⟨x, hx, hmk⟩ := List.mem_map.mp he2
  obtain ⟨q, c, tot⟩ := x
  have hlook : lookGrp q (groupLosses (losingOf trades)) = some (c, tot) :=
    (mem_iff_lookGrp _ (grpKeys_groupLosses_nodup _) q c tot).mp hx
  rw [lookGrp_groupLosses] at hlook
  by_cases hc : countPair (losingOf trades) q = 0
  · simp [hc] at hlook
  · simp only [hc, if_false, Option.some.injEq] at hlook
    have hcc : c = countPair (losingOf trades) q := by
      have := congrArg Prod.fst hlook
      simpa using this.symm
    have htt : tot = sumPair (losingOf trades) q := by
      have := congrArg Prod.snd hlook
      simpa using this.symm
    subst hmk
    exact ⟨hc, hcc, htt⟩

/-- C6: `lossByPair` groups the losing trades by currency pair — every
entry carries the number of losses and summed `profit_loss` of its pair —
and is sorted ascending by `total` (most negative first) with length at
most 5. -/
theorem lossByPair_grouped_sorted_top5 (trades : List Trade) :
    (∀ e ∈ (calculateLossMetrics trades).lossByPair,
        e.count = countPair (losingOf trades) e.pair ∧
        e.total = sumPair (losingOf trades) e.pair) ∧
    List.Sorted totalAsc (calculateLossMetrics trades).lossByPair ∧
    (calculateLossMetrics trades).lossByPair.length ≤ 5 := by
  refine ⟨fun e he => ?_, ?_, ?_⟩
  · exact (lossByPair_mem_spec trades e he).2
  · have hsort : List.Sorted totalAsc
        (((groupLosses (losingOf trades)).map
          fun x => PairLoss.mk x.1 x.2.1 x.2.2).insertionSort totalAsc) :=
      List.sorted_insertionSort totalAsc _
    have : (calculateLossMetrics trades).lossByPair
        = (((groupLosses (losingOf trades)).map
          fun x => PairLoss.mk x.1 x.2.1 x.2.2).insertionSort totalAsc).take 5 := by
      simp [calculateLossMetrics]
    rw [this]
    exact hsort.sublist (List.take_sublist _ _)
  · have : (calculateLossMetrics trades).lossByPair
        = (((groupLosses (losingOf trades)).map
          fun x => PairLoss.mk x.1 x.2.1 x.2.2).insertionSort totalAsc).take 5 := by
      simp [calculateLossMetrics]
    rw [this]
    exact List.length_take_le _ _

/-! ## Every `lossByPair` entry has a positive count and negative total -/

lemma sum_neg_of_all_neg : ∀ l : List ℚ, l ≠ [] → (∀ x ∈ l, x < 0) → l.sum < 0 := by
  intro l
  induction l with
  | nil => simp
  | cons x xs ih =>
    intro _ h
    rcases eq_or_ne xs [] with rfl | hne
    · simpa using h x (by simp)
    · have hxs := ih hne (fun y hy => h y (by simp [hy]))
      have hx := h x (by simp)
      simp only [List.sum_cons]
      linarith

lemma getD_neg_of_isLoss (t : Trade) (h : isLoss t = true) :
    t.profit_loss.getD 0 < 0 := by
  unfold isLoss at h
  cases hp : t.profit_loss with
  | none => rw [hp] at h; simp at h
  | some p =>
    rw [hp] at h
    simpa [hp] using of_decide_eq_true h

/-- C9: every entry of `lossByPair` has `count ≥ 1` and a strictly
negative `total`, because each group is built only from trades with
`profit_loss < 0`. -/
theorem lossByPair_entries_nonempty_negative (trades : List Trade) :
    ∀ e ∈ (calculateLossMetrics trades).lossByPair,
      1 ≤ e.count ∧ e.total < 0 := by
  intro e he
  obtain ⟨hne, hcount, htotal⟩ := lossByPair_mem_spec trades e he
  refine ⟨by omega, ?_⟩
  rw [htotal]
  have hfne : ((losingOf trades).filter fun t => t.currency_pair = e.pair) ≠ [] := by
    intro hcontra
    exact hne (by simp [countPair, hcontra])
  refine sum_neg_of_all_neg _ (by simpa using hfne) ?_
  intro x hx
  obtain ⟨t, ht, rfl⟩ := List.mem_map.mp hx
  have ht2 : t ∈ losingOf trades := List.mem_of_mem_filter ht
  have htl : isLoss t = true :=
    (List.mem_filter.mp (show t ∈ (closedOf trades).filter isLoss from ht2)).2
  exact getD_neg_of_isLoss t htl

/-- Witness for C6 at the scenario list: the worst pair entry is grouped
with its exact count and summed loss. -/
theorem lossByPair_grouped_witness :
    (PairLoss.mk "USDJPY" 1 (-30)).count = countPair (losingOf streakScenario) "USDJPY" ∧
    (PairLoss.mk "USDJPY" 1 (-30)).total = sumPair (losingOf streakScenario) "USDJPY" :=
  (lossByPair_grouped_sorted_top5 streakScenario).1 _ (by decide)

/-- Witness for C9 at the scenario list. -/
theorem lossByPair_negative_witness :
    1 ≤ (PairLoss.mk "GBPUSD" 1 (-20)).count ∧ (PairLoss.mk "GBPUSD" 1 (-20)).total < 0 :=
  lossByPair_entries_nonempty_negative streakScenario _ (by decide)

/-! ## Goal progress and status -/

/-- C4: goal status is derived in priority order with first match
winning — completed → "completed", else progress ≥ 100 → "achieved",
else daysLeft < 0 → "expired", else daysLeft ≤ 7 → "urgent", else
"active" — and the scenario goal (target 1000, P&L 1200, not completed)
has progress 100 and status "achieved". -/
theorem goalStatus_priority :
    (∀ (stats : Option Stats) (now : Int) (goal : Goal),
      (goal.completed = true → getGoalStatus stats now goal = "completed") ∧
      (goal.completed = false → 100 ≤ calculateProgress stats goal →
        getGoalStatus stats now goal = "achieved") ∧
      (goal.completed = false → calculateProgress stats goal < 100 →
        daysLeft goal now < 0 → getGoalStatus stats now goal = "expired") ∧
      (goal.completed = false → calculateProgress stats goal < 100 →
        0 ≤ daysLeft goal now → daysLeft goal now ≤ 7 →
        getGoalStatus stats now goal = "urgent") ∧
      (goal.completed = false → calculateProgress stats goal < 100 →
        7 < daysLeft goal now → getGoalStatus stats now goal = "active")) ∧
    calculateProgress (some statsScenario) goalScenario = 100 ∧
    getGoalStatus (some statsScenario) 0 goalScenario = "achieved" := by
  have hprog : calculateProgress (some statsScenario) goalScenario = 100 := by
    show min ((1200 : ℚ) / 1000 * 100) 100 = 100
    rw [show ((1200 : ℚ) / 1000 * 100) = 120 by norm_num]
    exact min_eq_right (by norm_num)
  refine ⟨fun stats now goal => ⟨?_, ?_, ?_, ?_, ?_⟩, hprog, ?_⟩
  · intro h
    simp [getGoalStatus, h]
  · intro h hp
    simp [getGoalStatus, h, hp]
  · intro h hp hd
    simp [getGoalStatus, h, not_le.mpr hp, hd]
  · intro h hp hd0 hd7
    simp [getGoalStatus, h, not_le.mpr hp, not_lt.mpr hd0, hd7]
  · intro h hp hd
    have h1 : ¬ daysLeft goal now < 0 := by omega
    have h2 : ¬ daysLeft goal now ≤ 7 := by omega
    simp [getGoalStatus, h, not_le.mpr hp, h1, h2]
  · unfold getGoalStatus
    rw [if_neg (by decide : ¬(goalScenario.completed = true))]
    rw [if_pos (show (100 : ℚ) ≤ calculateProgress (some statsScenario) goalScenario by
      simp [hprog])]

/-- Witness for C4: a completed goal reports status "completed". -/
theorem goalStatus_priority_witness :
    getGoalStatus (some statsScenario) 0 goalCompleted = "completed" :=
  (goalStatus_priority.1 (some statsScenario) 0 goalCompleted).1 rfl

/-- C5: with a positive target amount, progress never exceeds 100, and a
negative total P&L yields the raw (negative) percentage, not 0. -/
theorem progress_upper_clamp_only (goal : Goal) (s : Stats)
    (h : 0 < goal.target_amount) :
    calculateProgress (some s) goal ≤ 100 ∧
    (s.total_profit_loss < 0 →
      calculateProgress (some s) goal = s.total_profit_loss / goal.target_amount * 100 ∧
      calculateProgress (some s) goal < 0) := by
  constructor
  · exact min_le_right _ _
  · intro hneg
    have hv : s.total_profit_loss / goal.target_amount * 100 < 0 :=
      mul_neg_of_neg_of_pos (div_neg_of_neg_of_pos hneg h) (by norm_num)
    have hmin : calculateProgress (some s) goal
        = s.total_profit_loss / goal.target_amount * 100 :=
      min_eq_left (le_trans hv.le (by norm_num))
    exact ⟨hmin, hmin ▸ hv⟩

/-- Witness for C5 at a concrete goal and loss-making stats. -/
theorem progress_upper_clamp_only_witness :
    calculateProgress (some statsNegative) goalScenario ≤ 100 ∧
    calculateProgress (some statsNegative) goalScenario < 0 :=
  ⟨(progress_upper_clamp_only goalScenario statsNegative (by decide)).1,
   ((progress_upper_clamp_only goalScenario statsNegative (by decide)).2 (by decide)).2⟩

/-- C10: while the stats object is still null the progress computation
returns 0 rather than failing, the same value a loaded stats object with
zero profit yields — the two states are indistinguishable from the
progress value. -/
theorem progress_zero_when_stats_missing (goal : Goal) (s : Stats) :
    calculateProgress none goal = 0 ∧
    (0 < goal.target_amount → s.total_profit_loss = 0 →
      calculateProgress (some s) goal = 0) := by
  refine ⟨rfl, fun _ h0 => ?_⟩
  show min (s.total_profit_loss / goal.target_amount * 100) 100 = 0
  rw [h0, zero_div, zero_mul]
  exact min_eq_left (by norm_num)

/-- Witness for C10: null stats and zero-profit stats report the same 0. -/
theorem progress_zero_witness :
    calculateProgress none goalScenario = 0 ∧
    calculateProgress (some statsZero) goalScenario = 0 :=
  ⟨(progress_zero_when_stats_missing goalScenario statsZero).1,
   (progress_zero_when_stats_missing goalScenario statsZero).2 (by decide) (by decide)⟩

/-! ## The Loss Insights bullets -/

/-- C3: the insights list always contains exactly one worst-trade bullet,
a streak warning iff `longestStreak > 2`, the risk-sizing suggestion iff
`average_loss < -50`, and a bullet naming `lossByPair[0].pair` iff
`lossByPair` is non-empty. -/
theorem buildInsights_rules (s : Stats) (lm : LossMetrics) :
    ((buildInsights s lm).countP fun i => match i with
        | Insight.worstTrade _ => true
        | _ => false) = 1 ∧
    Insight.worstTrade |s.worst_trade| ∈ buildInsights s lm ∧
    ((∃ n, Insight.streakWarning n ∈ buildInsights s lm) ↔ 2 < lm.longestStreak) ∧
    (Insight.riskSizing ∈ buildInsights s lm ↔ s.average_loss < -50) ∧
    ((∃ p, Insight.worstPair p ∈ buildInsights s lm) ↔ lm.lossByPair ≠ []) ∧
    (∀ hd tl, lm.lossByPair = hd :: tl →
      Insight.worstPair hd.pair ∈ buildInsights s lm) := by
  by_cases h1 : 2 < lm.longestStreak <;>
    by_cases h2 : s.average_loss < -50 <;>
      rcases h3 : lm.lossByPair with _ | ⟨hd, tl⟩ <;>
        simp [buildInsights, h1, h2, h3]

/-- Witness for C3: with a non-empty `lossByPair`, the bullet names the
first (worst) pair. -/
theorem buildInsights_rules_witness :
    Insight.worstPair "USDJPY" ∈ buildInsights statsScenario lmScenario :=
  (buildInsights_rules statsScenario lmScenario).2.2.2.2.2
    (PairLoss.mk "USDJPY" 1 (-30)) [PairLoss.mk "GBPUSD" 1 (-20), PairLoss.mk "EURUSD" 1 (-10)]
    (by decide)

/-! ## The loss-percentage display and division by zero -/

/-- C2 counterexample: with a losing trade in the list and a stats object
with `total_trades = 0`, the Losses tab is rendered and its
percentage-of-total computation divides by zero — embedded as `none`
(JavaScript yields a non-finite value), not as the claimed 0. -/
theorem lossPercent_not_defined_as_zero :
    lossesTabShown (some zeroStats) lossOnlyTrades = true ∧
    lossPercentOfTrades (calculateLossMetrics lossOnlyTrades) zeroStats = none ∧
    lossPercentOfTrades (calculateLossMetrics lossOnlyTrades) zeroStats ≠ some 0 :=
  ⟨by decide, by decide, by decide⟩

/-- C2 amended: the client guards the percentage-of-total not by defining
the ratio as 0 on `total_trades = 0` but by rendering it only when
`totalLosses > 0`; whenever the stats are consistent with the trade list
(`totalLosses ≤ total_trades`), the rendered computation never divides
by zero. -/
theorem lossPercent_guarded_when_consistent (trades : List Trade) (s : Stats)
    (hshown : lossesTabShown (some s) trades = true)
    (hcons : (calculateLossMetrics trades).totalLosses ≤ s.total_trades) :
    lossPercentOfTrades (calculateLossMetrics trades) s
      = some (((calculateLossMetrics trades).totalLosses : ℚ)
          / (s.total_trades : ℚ) * 100) := by
  have hpos : 0 < (calculateLossMetrics trades).totalLosses := by
    simpa [lossesTabShown] using hshown
  have hne : s.total_trades ≠ 0 := by omega
  simp [lossPercentOfTrades, hne]

/-- Witness for the amended C2 at a consistent concrete input. -/
theorem lossPercent_guarded_witness :
    lossPercentOfTrades (calculateLossMetrics lossOnlyTrades) statsConsistent
      = some (((calculateLossMetrics lossOnlyTrades).totalLosses : ℚ)
          / (statsConsistent.total_trades : ℚ) * 100) :=
  lossPercent_guarded_when_consistent lossOnlyTrades statsConsistent (by decide) (by decide)

/-! ## Purity of the metrics computation -/

/-- C8: `calculateLossMetrics` is a pure function of the trade list: the
run leaves the `trades` state unchanged (the in-place sorts hit only the
fresh arrays built by `filter`), and running it again on the post-state
returns the identical result. -/
theorem calculateLossMetrics_pure (trades : List Trade) :
    (runCalculateLossMetrics ((runCalculateLossMetrics trades).2)).1
        = (runCalculateLossMetrics trades).1 ∧
    (runCalculateLossMetrics trades).2 = trades :=
  ⟨rfl, rfl⟩

end Tradelog
